import Mathlib

/-!
Shallow embedding of the staffing-plan chat backend (src/backend/chat.ts)
and the JSON Recovery Engine (parseJsonWithRetry and
sanitizePotentialFormatting in the plan-generation module).

JavaScript values produced by JSON.parse are modelled by JsonVal; JS
numbers are modelled as exact rationals (the claims only inspect the
type tag and the sign of numbers, never float rounding). JS strings are
modelled as Lean strings. The nondeterministic model calls are modelled
as explicit inputs: the repair loop receives an oracle giving the text
of each repair response, and getChatResponse receives the outcome of
the one completion call it makes.
-/

/-- A JavaScript value as produced by JSON.parse. -/
inductive JsonVal where
  | null : JsonVal
  | bool (b : Bool) : JsonVal
  | num (q : Rat) : JsonVal
  | str (s : String) : JsonVal
  | arr (elems : List JsonVal) : JsonVal
  | obj (fields : List (String × JsonVal)) : JsonVal
deriving Repr

/-- The left curly-brace character. -/
def lbrace : Char := Char.ofNat 123

/-- The right curly-brace character. -/
def rbrace : Char := Char.ofNat 125

/-- Whitespace accepted by strict JSON (JSON.parse). -/
def isJsonWs (c : Char) : Bool :=
  c = ' ' || c = Char.ofNat 9 || c = Char.ofNat 10 || c = Char.ofNat 13

/-- A character matched by the JavaScript regex class backslash-s
(and by String.prototype.trim). -/
def isJsWsChar (c : Char) : Bool :=
  c = ' ' || c = Char.ofNat 9 || c = Char.ofNat 10 || c = Char.ofNat 11 ||
  c = Char.ofNat 12 || c = Char.ofNat 13 || c = Char.ofNat 160 ||
  c = Char.ofNat 5760 || (8192 ≤ c.toNat && c.toNat ≤ 8202) ||
  c = Char.ofNat 8232 || c = Char.ofNat 8233 || c = Char.ofNat 8239 ||
  c = Char.ofNat 8287 || c = Char.ofNat 12288 || c = Char.ofNat 65279

/-- A character in the JavaScript regex class [()\s]. -/
def isParenOrWs (c : Char) : Bool :=
  c = '(' || c = ')' || isJsWsChar c

/-- JavaScript String.prototype.trim on a character list. -/
def jsTrimList (cs : List Char) : List Char :=
  ((cs.dropWhile isJsWsChar).reverse.dropWhile isJsWsChar).reverse

/-- JavaScript String.prototype.trim. -/
def jsTrimString (s : String) : String :=
  String.mk (jsTrimList s.data)

/-- Case-insensitive prefix match: if the pattern is a prefix of the
input (comparing via toLower), return the remainder of the input. -/
def matchPrefixCI : List Char → List Char → Option (List Char)
  | [], cs => some cs
  | _ :: _, [] => none
  | p :: ps, c :: cs => if p.toLower = c.toLower then matchPrefixCI ps cs else none

/-- One global, case-insensitive replace of a pattern by the empty
string, as in JavaScript str.replace of a gi regex of a literal pattern.
The fuel argument is called with the length of the input; each step
consumes at least one input character, so the fuel never runs out. -/
def removeAllCI (pat : List Char) : Nat → List Char → List Char
  | _, [] => []
  | 0, cs => cs
  | f + 1, c :: rest =>
    match matchPrefixCI pat (c :: rest) with
    | some remaining => removeAllCI pat f remaining
    | none => c :: removeAllCI pat f rest

/-- Source sanitizePotentialFormatting: remove all occurrences of the
case-insensitive pattern three-backticks-json, then of three backticks,
then strip leading and trailing runs of parentheses and whitespace,
then trim. -/
def sanitizePotentialFormatting (raw : String) : String :=
  let s1 := removeAllCI "```json".data raw.data.length raw.data
  let s2 := removeAllCI "```".data s1.length s1
  let s3 := s2.dropWhile isParenOrWs
  let s4 := (s3.reverse.dropWhile isParenOrWs).reverse
  String.mk (jsTrimList s4)

/-- Numeric value of a hexadecimal digit. -/
def hexVal (c : Char) : Option Nat :=
  if '0' ≤ c ∧ c ≤ '9' then some (c.toNat - 48)
  else if 'a' ≤ c ∧ c ≤ 'f' then some (c.toNat - 87)
  else if 'A' ≤ c ∧ c ≤ 'F' then some (c.toNat - 55)
  else none

/-- Parse exactly four hexadecimal digits. -/
def parseHex4 : List Char → Option (Nat × List Char)
  | a :: b :: c :: d :: rest => do
    let x ← hexVal a
    let y ← hexVal b
    let z ← hexVal c
    let w ← hexVal d
    pure (((x * 16 + y) * 16 + z) * 16 + w, rest)
  | _ => none

/-- Parse the body of a JSON string literal (the opening quote already
consumed), handling the JSON escape sequences; control characters below
0x20 are rejected as JSON.parse does. -/
def parseStringBody : Nat → List Char → List Char → Option (String × List Char)
  | 0, _, _ => none
  | _, [], _ => none
  | f + 1, c :: rest, acc =>
    if c = '"' then some (String.mk acc.reverse, rest)
    else if c = '\\' then
      match rest with
      | [] => none
      | e :: rest2 =>
        if e = '"' then parseStringBody f rest2 ('"' :: acc)
        else if e = '\\' then parseStringBody f rest2 ('\\' :: acc)
        else if e = '/' then parseStringBody f rest2 ('/' :: acc)
        else if e = 'b' then parseStringBody f rest2 (Char.ofNat 8 :: acc)
        else if e = 'f' then parseStringBody f rest2 (Char.ofNat 12 :: acc)
        else if e = 'n' then parseStringBody f rest2 (Char.ofNat 10 :: acc)
        else if e = 'r' then parseStringBody f rest2 (Char.ofNat 13 :: acc)
        else if e = 't' then parseStringBody f rest2 (Char.ofNat 9 :: acc)
        else if e = 'u' then
          match parseHex4 rest2 with
          | some (n, rest3) => parseStringBody f rest3 (Char.ofNat n :: acc)
          | none => none
        else none
    else if c.toNat < 32 then none
    else parseStringBody f rest (c :: acc)

/-- Decimal value of a digit list. -/
def digitsToNat (ds : List Char) : Nat :=
  ds.foldl (fun n d => n * 10 + (d.toNat - 48)) 0

/-- Ten to a natural power, as a rational. -/
def pow10 (n : Nat) : Rat := (10 : Rat) ^ n

/-- Scale a rational by ten to an integer power. -/
def applyExp (q : Rat) (e : Int) : Rat :=
  if 0 ≤ e then q * pow10 e.toNat else q / pow10 (-e).toNat

/-- Parse a JSON number: optional minus, integer part without leading
zeros, optional fraction, optional exponent. -/
def parseNumber (cs : List Char) : Option (Rat × List Char) :=
  let signAndRest : Bool × List Char :=
    match cs with
    | '-' :: r => (true, r)
    | _ => (false, cs)
  let neg := signAndRest.1
  let cs1 := signAndRest.2
  match cs1 with
  | [] => none
  | c :: _ =>
    if ¬ c.isDigit then none
    else
      let intDs := cs1.takeWhile Char.isDigit
      let rest1 := cs1.dropWhile Char.isDigit
      if 1 < intDs.length ∧ intDs.headD ' ' = '0' then none
      else
        let fracAndRest : Option (List Char × List Char) :=
          match rest1 with
          | '.' :: r =>
            let ds := r.takeWhile Char.isDigit
            if ds.isEmpty then none else some (ds, r.dropWhile Char.isDigit)
          | _ => some ([], rest1)
        match fracAndRest with
        | none => none
        | some (fracDs, rest2) =>
          let expAndRest : Option (Int × List Char) :=
            match rest2 with
            | e :: r =>
              if e = 'e' ∨ e = 'E' then
                let signRest : Bool × List Char :=
                  match r with
                  | '+' :: r2 => (false, r2)
                  | '-' :: r2 => (true, r2)
                  | _ => (false, r)
                let eds := signRest.2.takeWhile Char.isDigit
                if eds.isEmpty then none
                else
                  let ev : Int := Int.ofNat (digitsToNat eds)
                  some (if signRest.1 then -ev else ev, signRest.2.dropWhile Char.isDigit)
              else some (0, rest2)
            | [] => some (0, [])
          match expAndRest with
          | none => none
          | some (ex, rest3) =>
            let m : Int := Int.ofNat (digitsToNat (intDs ++ fracDs))
            let m2 : Int := if neg then -m else m
            let base : Rat :=
              if fracDs.length = 0 then (m2 : Rat)
              else (m2 : Rat) / pow10 fracDs.length
            let q : Rat := if ex = 0 then base else applyExp base ex
            some (q, rest3)

/-- Drop leading strict-JSON whitespace. -/
def skipJsonWs (cs : List Char) : List Char :=
  cs.dropWhile isJsonWs

-- Parse one JSON value (leading whitespace allowed), returning the
-- value and the unconsumed remainder. The fuel only bounds the
-- recursion bookkeeping; jsonParse supplies more fuel than any input
-- can use.
mutual

def parseVal : Nat → List Char → Option (JsonVal × List Char)
  | 0, _ => none
  | f + 1, cs =>
    match skipJsonWs cs with
    | [] => none
    | c :: rest =>
      if c = '"' then
        match parseStringBody (rest.length + 1) rest [] with
        | some (s, r) => some (JsonVal.str s, r)
        | none => none
      else if c = 't' then
        match rest with
        | 'r' :: 'u' :: 'e' :: r => some (JsonVal.bool true, r)
        | _ => none
      else if c = 'f' then
        match rest with
        | 'a' :: 'l' :: 's' :: 'e' :: r => some (JsonVal.bool false, r)
        | _ => none
      else if c = 'n' then
        match rest with
        | 'u' :: 'l' :: 'l' :: r => some (JsonVal.null, r)
        | _ => none
      else if c = '-' ∨ c.isDigit then
        match parseNumber (c :: rest) with
        | some (q, r) => some (JsonVal.num q, r)
        | none => none
      else if c = '[' then
        match skipJsonWs rest with
        | ']' :: r => some (JsonVal.arr [], r)
        | r2 => parseElems f r2 []
      else if c = lbrace then
        let r2 := skipJsonWs rest
        if r2.headD ' ' = rbrace then some (JsonVal.obj [], r2.tail)
        else parseMembers f r2 []
      else none

def parseElems : Nat → List Char → List JsonVal → Option (JsonVal × List Char)
  | 0, _, _ => none
  | f + 1, cs, acc =>
    match parseVal f cs with
    | none => none
    | some (v, r) =>
      match skipJsonWs r with
      | ',' :: r2 => parseElems f r2 (v :: acc)
      | ']' :: r2 => some (JsonVal.arr (v :: acc).reverse, r2)
      | _ => none

def parseMembers : Nat → List Char → List (String × JsonVal) → Option (JsonVal × List Char)
  | 0, _, _ => none
  | f + 1, cs, acc =>
    match skipJsonWs cs with
    | '"' :: r =>
      match parseStringBody (r.length + 1) r [] with
      | some (k, r2) =>
        match skipJsonWs r2 with
        | ':' :: r3 =>
          match parseVal f r3 with
          | some (v, r4) =>
            match skipJsonWs r4 with
            | ',' :: r5 => parseMembers f r5 ((k, v) :: acc)
            | d :: r5 =>
              if d = rbrace then some (JsonVal.obj ((k, v) :: acc).reverse, r5)
              else none
            | [] => none
          | none => none
        | _ => none
      | none => none
    | _ => none

end

/-- Strict JSON.parse: parse one value and require only whitespace to
remain; any failure is modelled as none (JSON.parse throwing). -/
def jsonParse (s : String) : Option JsonVal :=
  match parseVal (2 * s.data.length + 4) s.data with
  | some (v, rest) => if (skipJsonWs rest).isEmpty then some v else none
  | none => none

/-- Outcome of parseJsonWithRetry: the returned value or thrown error
message, together with the number of repair model calls made. -/
structure RetryOutcome where
  result : Except String JsonVal
  repairCalls : Nat

/-- The parse-or-repair loop of parseJsonWithRetry. The repair oracle
gives, for each repair call index, the content string of the model
response (the source applies sanitizePotentialFormatting to it before
retrying). remaining counts how many repair calls are still allowed,
so it starts at maxRetries; when a parse fails with none remaining the
source logs the last raw text and error and throws its fixed message. -/
def retryLoop (repair : Nat → String) : Nat → String → Nat → RetryOutcome
  | 0, raw, calls =>
    match jsonParse raw with
    | some v => { result := Except.ok v, repairCalls := calls }
    | none => { result := Except.error "Failed to parse JSON (max retries exceeded)", repairCalls := calls }
  | r + 1, raw, calls =>
    match jsonParse raw with
    | some v => { result := Except.ok v, repairCalls := calls }
    | none => retryLoop repair r (sanitizePotentialFormatting (repair calls)) (calls + 1)

/-- Source parseJsonWithRetry: sanitize the content, then run the
parse-or-repair loop with the given budget (the source default is 2). -/
def parseJsonWithRetry (repair : Nat → String) (content : String) (maxRetries : Nat) : RetryOutcome :=
  retryLoop repair maxRetries (sanitizePotentialFormatting content) 0

/-- Role of a chat message. -/
inductive Role where
  | system : Role
  | user : Role
  | assistant : Role
deriving DecidableEq, Repr

/-- A chat message as sent to the completions endpoint. -/
structure ChatMsg where
  role : Role
  content : String
deriving DecidableEq, Repr

/-- The message list built by getChatResponse: the system message, the
last five history turns, and the user message, keeping only entries
whose content is non-null and not whitespace-only. -/
def buildMessages (systemMessage : String) (history : List ChatMsg) (message : String) : List ChatMsg :=
  ((ChatMsg.mk Role.system systemMessage ::
      (history.drop (history.length - 5)).map (fun m => ChatMsg.mk m.role m.content)) ++
    [ChatMsg.mk Role.user message]).filter (fun m => jsTrimString m.content != "")

/-- Response object returned by getChatResponse (absent fields are
none). -/
structure ChatResponse where
  message : String
  updatedPlan : Option (List (String × JsonVal))
  error : Option String
deriving Repr

/-- Outcome of the one completion call made by getChatResponse:
either a reply whose content may be missing, or a thrown call error
carrying an optional error code and a message. -/
inductive CallOutcome where
  | success (content : Option String) : CallOutcome
  | failure (code : Option String) (msg : String) : CallOutcome

/-- The marker token introducing a plan update. -/
def planUpdateMarker : String := "PLAN_UPDATE:"

/-- Exact prefix match returning the remainder. -/
def matchPrefixOf : List Char → List Char → Option (List Char)
  | [], cs => some cs
  | _ :: _, [] => none
  | p :: ps, c :: cs => if p = c then matchPrefixOf ps cs else none

/-- JavaScript String.prototype.includes for a non-regex separator. -/
def containsSub (sep : List Char) : List Char → Bool
  | [] => sep.isEmpty
  | c :: rest =>
    match matchPrefixOf sep (c :: rest) with
    | some _ => true
    | none => containsSub sep rest

/-- JavaScript String.prototype.split on a string separator, scanning
left to right with non-overlapping matches; acc accumulates the
current piece reversed. The fuel is called with the input length; each
step consumes at least one input character (the separators used here
are nonempty), so the fuel never runs out. -/
def splitOnSub (sep : List Char) : Nat → List Char → List Char → List (List Char)
  | _, [], acc => [acc.reverse]
  | 0, cs, acc => [acc.reverse ++ cs]
  | f + 1, c :: rest, acc =>
    match matchPrefixOf sep (c :: rest) with
    | some _ => acc.reverse :: splitOnSub sep f (rest.drop (sep.length - 1)) []
    | none => splitOnSub sep f rest (c :: acc)

/-- The brace-balance scan of getChatResponse: walk the characters
counting curly-brace depth; when a closing brace returns the depth to
zero the scan stops and reports the index one past it; if that never
happens the reported end index stays zero. -/
def braceScanAux : List Char → Int → Nat → Nat
  | [], _, _ => 0
  | c :: rest, depth, i =>
    if c = lbrace then braceScanAux rest (depth + 1) (i + 1)
    else if c = rbrace then
      if depth - 1 = 0 then i + 1
      else braceScanAux rest (depth - 1) (i + 1)
    else braceScanAux rest depth (i + 1)

/-- Lines 92-109 of getChatResponse: take the text after the first
marker token (and before a second one, as String.split does), trim it,
run the brace-balance scan, and split it into the JSON payload and the
trimmed explanation text. -/
def extractPlanUpdate (content : String) : String × String :=
  let parts := splitOnSub planUpdateMarker.data content.data.length content.data []
  let updatePart := jsTrimList ((parts.drop 1).headD [])
  let jsonEnd := braceScanAux updatePart 0 0
  (String.mk (updatePart.take jsonEnd), String.mk (jsTrimList (updatePart.drop jsonEnd)))

/-- JavaScript property access on a parsed value: a key lookup on an
object (first binding), undefined (none) on anything else. -/
def getProp (v : JsonVal) (key : String) : Option JsonVal :=
  match v with
  | JsonVal.obj fields =>
    match fields.find? (fun p => p.1 = key) with
    | some p => some p.2
    | none => none
  | _ => none

/-- JavaScript truthiness of a possibly-undefined value. -/
def jsTruthyOpt : Option JsonVal → Bool
  | none => false
  | some JsonVal.null => false
  | some (JsonVal.bool b) => b
  | some (JsonVal.num q) => q != 0
  | some (JsonVal.str s) => s != ""
  | some (JsonVal.arr _) => true
  | some (JsonVal.obj _) => true

/-- Is the value a JavaScript number (typeof x === number). -/
def isNumberProp : Option JsonVal → Bool
  | some (JsonVal.num _) => true
  | _ => false

/-- The per-task check of getChatResponse lines 119-123: truthy taskId,
truthy lcat, and hours of type number; a failing task makes the forEach
throw into the soft-failure catch. -/
def validTask (t : JsonVal) : Bool :=
  jsTruthyOpt (getProp t "taskId") && jsTruthyOpt (getProp t "lcat") &&
    isNumberProp (getProp t "hours")

/-- First-binding lookup in an object field list. -/
def lookupField : List (String × JsonVal) → String → Option JsonVal
  | [], _ => none
  | p :: rest, key => if p.1 = key then some p.2 else lookupField rest key

/-- JavaScript object spread followed by one explicit key: the key
keeps its original position if present, else is appended. -/
def objSet (o : List (String × JsonVal)) (key : String) (v : JsonVal) : List (String × JsonVal) :=
  if o.any (fun p => p.1 = key) then
    o.map (fun p => if p.1 = key then (key, v) else p)
  else o ++ [(key, v)]

/-- The user-facing clarification message of the soft-failure branch. -/
def clarificationMsg : String :=
  "I understood your request to update the plan, but I need you to be more specific about what changes you want to make. Please specify which task(s) you want to modify and what values should be changed."

/-- The fixed apology for a missing completion content. -/
def apologyMsg : String := "I\x27m sorry, I couldn\x27t generate a response."

/-- The user-facing message for a context-length failure. -/
def tooLongMsg : String :=
  "I apologize, but the plan and conversation history are too long for me to process. Could you try breaking down your request into smaller parts?"

/-- The soft-failure response of the inner catch of getChatResponse. -/
def softFailResponse : ChatResponse :=
  { message := clarificationMsg, updatedPlan := none, error := some "Failed to parse plan update" }

/-- Lines 91-143 of getChatResponse: extract the tagged block, parse
it, validate its shape, and either build the full-replacement plan or
fall into the soft-failure catch. -/
def applyPlanUpdate (content : String) (planData : List (String × JsonVal)) : ChatResponse :=
  let pr := extractPlanUpdate content
  match jsonParse pr.1 with
  | none => softFailResponse
  | some updateData =>
    match getProp updateData "tasks" with
    | some (JsonVal.arr ts) =>
      if ts.all validTask = true then
        { message := if pr.2 = "" then "Plan updated successfully" else pr.2
          updatedPlan := some (objSet planData "finalStaffingPlan" (JsonVal.obj [("tasks", JsonVal.arr ts)]))
          error := none }
      else softFailResponse
    | _ => softFailResponse

/-- Source getChatResponse after the completion call, as a function of
the call outcome and of the current plan object: the Except models
whether the function returns (ok) or throws (error). -/
def getChatResponse (outcome : CallOutcome) (planData : List (String × JsonVal)) : Except String ChatResponse :=
  match outcome with
  | CallOutcome.failure code msg =>
    if code = some "context_length_exceeded" then
      Except.ok { message := tooLongMsg, updatedPlan := none, error := some "Message too long" }
    else
      Except.error ("Failed to get AI response: " ++ msg)
  | CallOutcome.success contentOpt =>
    match contentOpt with
    | none => Except.ok { message := apologyMsg, updatedPlan := none, error := none }
    | some content =>
      if content = "" then
        Except.ok { message := apologyMsg, updatedPlan := none, error := none }
      else if containsSub planUpdateMarker.data content.data then
        Except.ok (applyPlanUpdate content planData)
      else
        Except.ok { message := content, updatedPlan := none, error := none }

theorem retryLoop_all_fail (repair : Nat → String)
    (hr : ∀ n, jsonParse (sanitizePotentialFormatting (repair n)) = none) :
    ∀ (remaining : Nat) (raw : String) (calls : Nat), jsonParse raw = none →
      retryLoop repair remaining raw calls =
        { result := Except.error "Failed to parse JSON (max retries exceeded)"
          repairCalls := calls + remaining } := by
  intro remaining
  induction remaining with
  | zero =>
    intro raw calls h
    rw [retryLoop, h]
    simp
  | succ r ih =>
    intro raw calls h
    rw [retryLoop, h]
    have e2 := ih (sanitizePotentialFormatting (repair calls)) (calls + 1) (hr calls)
    have h3 : calls + 1 + r = calls + (r + 1) := by omega
    rw [h3] at e2
    exact e2

theorem retryLoop_parse_ok (repair : Nat → String) (remaining : Nat) (raw : String)
    (calls : Nat) (v : JsonVal) (h : jsonParse raw = some v) :
    retryLoop repair remaining raw calls = { result := Except.ok v, repairCalls := calls } := by
  cases remaining with
  | zero => rw [retryLoop, h]
  | succ r => rw [retryLoop, h]

theorem lookupField_map_set (o : List (String × JsonVal)) (key : String) (v : JsonVal)
    (h : o.any (fun p => p.1 = key) = true) :
    lookupField (o.map (fun p => if p.1 = key then (key, v) else p)) key = some v := by
  induction o with
  | nil => simp at h
  | cons hd tl ih =>
    simp only [List.map_cons]
    by_cases hk : hd.1 = key
    · rw [if_pos hk]
      rw [lookupField]
      simp
    · rw [if_neg hk, lookupField, if_neg hk]
      apply ih
      simp only [List.any_cons, Bool.or_eq_true, decide_eq_true_eq] at h
      rcases h with h | h
      · exact absurd h hk
      · exact h

theorem lookupField_append_set (o : List (String × JsonVal)) (key : String) (v : JsonVal)
    (h : o.any (fun p => p.1 = key) = false) :
    lookupField (o ++ [(key, v)]) key = some v := by
  induction o with
  | nil =>
    rw [List.nil_append, lookupField]
    simp
  | cons hd tl ih =>
    simp only [List.any_cons, Bool.or_eq_false_iff, decide_eq_false_iff_not] at h
    rw [List.cons_append, lookupField, if_neg h.1]
    exact ih h.2

theorem lookupField_map_other (o : List (String × JsonVal)) (key : String) (v : JsonVal)
    (k : String) (hk : k ≠ key) :
    lookupField (o.map (fun p => if p.1 = key then (key, v) else p)) k = lookupField o k := by
  induction o with
  | nil => rfl
  | cons hd tl ih =>
    have hkey : ¬ key = k := fun e => hk e.symm
    simp only [List.map_cons]
    by_cases h1 : hd.1 = key
    · have hhd : ¬ hd.1 = k := by rw [h1]; exact hkey
      rw [if_pos h1]
      simp only [lookupField]
      rw [if_neg (show ¬ ((key, v).1 = k) from hkey), if_neg hhd]
      exact ih
    · rw [if_neg h1]
      simp only [lookupField]
      by_cases h2 : hd.1 = k
      · rw [if_pos h2, if_pos h2]
      · rw [if_neg h2, if_neg h2]
        exact ih

theorem lookupField_append_other (o : List (String × JsonVal)) (key : String) (v : JsonVal)
    (k : String) (hk : k ≠ key) :
    lookupField (o ++ [(key, v)]) k = lookupField o k := by
  induction o with
  | nil =>
    have hkey : ¬ key = k := fun e => hk e.symm
    simp [lookupField, hkey]
  | cons hd tl ih =>
    rw [List.cons_append]
    simp only [lookupField]
    by_cases h : hd.1 = k
    · rw [if_pos h, if_pos h]
    · rw [if_neg h, if_neg h]
      exact ih

theorem lookupField_objSet_self (o : List (String × JsonVal)) (key : String) (v : JsonVal) :
    lookupField (objSet o key v) key = some v := by
  unfold objSet
  by_cases h : o.any (fun p => p.1 = key) = true
  · rw [if_pos h]
    exact lookupField_map_set o key v h
  · rw [if_neg h]
    exact lookupField_append_set o key v (Bool.eq_false_iff.mpr h)

theorem lookupField_objSet_other (o : List (String × JsonVal)) (key : String) (v : JsonVal)
    (k : String) (hk : k ≠ key) :
    lookupField (objSet o key v) k = lookupField o k := by
  unfold objSet
  by_cases h : o.any (fun p => p.1 = key) = true
  · rw [if_pos h]
    exact lookupField_map_other o key v k hk
  · rw [if_neg h]
    exact lookupField_append_other o key v k hk

/-- C1 (amended): for a malformed input (its sanitized form does not
parse) and repair responses that are all malformed as well,
parseJsonWithRetry makes exactly maxRetries repair calls (so at most
the budget, source default 2) and then fails with the thrown error,
whose message is the fixed string; it never returns a parsed value
after the budget is exhausted. -/
theorem parseJsonWithRetry_exhaustion (repair : Nat → String) (content : String)
    (maxRetries : Nat)
    (hr : ∀ n, jsonParse (sanitizePotentialFormatting (repair n)) = none)
    (hc : jsonParse (sanitizePotentialFormatting content) = none) :
    (parseJsonWithRetry repair content maxRetries).result =
      Except.error "Failed to parse JSON (max retries exceeded)" ∧
    (parseJsonWithRetry repair content maxRetries).repairCalls = maxRetries := by
  unfold parseJsonWithRetry
  rw [retryLoop_all_fail repair hr maxRetries _ 0 hc]
  exact ⟨rfl, by simp⟩

/-- Witness for C1: two thoroughly malformed strings exhaust the
default budget of two repair calls and produce the fixed error. -/
theorem parseJsonWithRetry_exhaustion_witness :
    (parseJsonWithRetry (fun _ => "not json either") "not json" 2).result =
      Except.error "Failed to parse JSON (max retries exceeded)" ∧
    (parseJsonWithRetry (fun _ => "not json either") "not json" 2).repairCalls = 2 :=
  parseJsonWithRetry_exhaustion (fun _ => "not json either") "not json" 2 (fun _ => rfl) rfl

/-- C1 counterexample: after exhaustion the thrown error is the fixed
message; neither the last raw string ("not json either") nor the parse
error text is carried in it, refuting the "carries the last raw string
and the last parse error" part of the claim. -/
theorem parseJsonWithRetry_error_not_carrying_counterexample :
    (parseJsonWithRetry (fun _ => "not json either") "not json" 2).result =
      Except.error "Failed to parse JSON (max retries exceeded)" ∧
    containsSub "not json either".data "Failed to parse JSON (max retries exceeded)".data = false ∧
    containsSub "not json".data "Failed to parse JSON (max retries exceeded)".data = false :=
  ⟨rfl, rfl, rfl⟩

/-- C2 (amended): for every input whose sanitized form (code fences
removed, edge parentheses and whitespace stripped) parses as JSON,
parseJsonWithRetry returns exactly that parsed value on the first
parse attempt and makes no repair call, for any budget and oracle. -/
theorem parseJsonWithRetry_first_attempt (repair : Nat → String) (content : String)
    (maxRetries : Nat) (v : JsonVal)
    (h : jsonParse (sanitizePotentialFormatting content) = some v) :
    (parseJsonWithRetry repair content maxRetries).result = Except.ok v ∧
    (parseJsonWithRetry repair content maxRetries).repairCalls = 0 := by
  unfold parseJsonWithRetry
  rw [retryLoop_parse_ok repair maxRetries _ 0 v h]
  exact ⟨rfl, rfl⟩

/-- Witness for C2: valid JSON wrapped in a json code fence parses on
the first attempt to the unwrapped value with zero repair calls. -/
theorem parseJsonWithRetry_first_attempt_witness :
    (parseJsonWithRetry (fun _ => "") "```json\n\x7b\"a\":1\x7d\n```" 2).result =
      Except.ok (JsonVal.obj [("a", JsonVal.num 1)]) ∧
    (parseJsonWithRetry (fun _ => "") "```json\n\x7b\"a\":1\x7d\n```" 2).repairCalls = 0 :=
  parseJsonWithRetry_first_attempt (fun _ => "") "```json\n\x7b\"a\":1\x7d\n```" 2
    (JsonVal.obj [("a", JsonVal.num 1)]) rfl

/-- C2 counterexample: the five-character input consisting of a JSON
string literal containing three backticks is already valid JSON whose
value is the three-backtick string, yet the sanitizer deletes the
backticks, so the first parse attempt succeeds with the empty string
instead of the original value. -/
theorem sanitize_corrupts_valid_json_counterexample :
    jsonParse "\"```\"" = some (JsonVal.str "```") ∧
    (parseJsonWithRetry (fun _ => "") "\"```\"" 2).result = Except.ok (JsonVal.str "") ∧
    JsonVal.str "" ≠ JsonVal.str "```" :=
  ⟨rfl, rfl, fun h => by injection h with h2; exact absurd h2 (by decide)⟩

/-- C3: on the concrete reply from the spec, the brace-balance
extractor of getChatResponse returns exactly the nested tasks object
(stopping at the first point the curly-brace depth returns to zero)
and the trailing explanation text containing a stray closing brace. -/
theorem braceBalance_extraction_concrete :
    extractPlanUpdate "PLAN_UPDATE:\n\x7b\"tasks\":[\x7b\"a\":1\x7d,\x7b\"b\":\x7b\"c\":2\x7d\x7d]\x7d\nExplanation with a stray \x7d character." =
      ("\x7b\"tasks\":[\x7b\"a\":1\x7d,\x7b\"b\":\x7b\"c\":2\x7d\x7d]\x7d",
        "Explanation with a stray \x7d character.") := rfl

/-- C4: whenever the reply contains the marker but the extracted
substring fails to parse, or the parsed value has no tasks array, or
some task fails the line validation (truthy taskId, truthy lcat,
numeric hours), getChatResponse returns the clarification message with
the error marker, does not throw, and sets no updatedPlan. -/
theorem getChatResponse_invalid_update_soft (content : String) (planData : List (String × JsonVal))
    (hm : containsSub planUpdateMarker.data content.data = true)
    (hbad : ∀ u, jsonParse (extractPlanUpdate content).1 = some u →
      ∀ ts, getProp u "tasks" = some (JsonVal.arr ts) → ts.all validTask = false) :
    getChatResponse (CallOutcome.success (some content)) planData =
      Except.ok { message := clarificationMsg, updatedPlan := none
                  error := some "Failed to parse plan update" } := by
  have hne : ¬ content = "" := by
    intro h
    subst h
    exact absurd hm (by decide)
  simp only [getChatResponse]
  rw [if_neg hne, if_pos hm]
  simp only [applyPlanUpdate]
  split
  · rfl
  · rename_i u2 heq
    split
    · rename_i ts2 heq2
      have hv := hbad u2 heq ts2 heq2
      rw [if_neg (by simp [hv])]
      rfl
    · rfl

/-- Witness for C4: a reply whose marker is followed by no JSON at all
falls into the soft-failure branch. -/
theorem getChatResponse_invalid_update_soft_witness :
    getChatResponse (CallOutcome.success (some "PLAN_UPDATE: no json here")) [] =
      Except.ok { message := clarificationMsg, updatedPlan := none
                  error := some "Failed to parse plan update" } :=
  getChatResponse_invalid_update_soft "PLAN_UPDATE: no json here" [] (by decide)
    (fun _ hu => by
      rw [show jsonParse (extractPlanUpdate "PLAN_UPDATE: no json here").1 = none from rfl] at hu
      exact Option.noConfusion hu)

/-- C5: on a successful revision (marker present, extracted update
parses, has a tasks array, and every line passes validation) the
response carries an updatedPlan equal to the whole input plan with the
finalStaffingPlan key replaced by an object holding exactly the tasks
of the update, and every other key of the plan is unchanged. -/
theorem getChatResponse_full_replacement (content : String) (planData : List (String × JsonVal))
    (u : JsonVal) (ts : List JsonVal)
    (hm : containsSub planUpdateMarker.data content.data = true)
    (hp : jsonParse (extractPlanUpdate content).1 = some u)
    (ht : getProp u "tasks" = some (JsonVal.arr ts))
    (hv : ts.all validTask = true) :
    getChatResponse (CallOutcome.success (some content)) planData =
      Except.ok
        { message :=
            if (extractPlanUpdate content).2 = "" then "Plan updated successfully"
            else (extractPlanUpdate content).2
          updatedPlan :=
            some (objSet planData "finalStaffingPlan" (JsonVal.obj [("tasks", JsonVal.arr ts)]))
          error := none } ∧
    lookupField (objSet planData "finalStaffingPlan" (JsonVal.obj [("tasks", JsonVal.arr ts)]))
        "finalStaffingPlan" = some (JsonVal.obj [("tasks", JsonVal.arr ts)]) ∧
    ∀ k, k ≠ "finalStaffingPlan" →
      lookupField (objSet planData "finalStaffingPlan" (JsonVal.obj [("tasks", JsonVal.arr ts)])) k =
        lookupField planData k := by
  refine ⟨?_, lookupField_objSet_self planData "finalStaffingPlan" _,
    fun k hk => lookupField_objSet_other planData "finalStaffingPlan" _ k hk⟩
  have hne : ¬ content = "" := by
    intro h
    subst h
    exact absurd hm (by decide)
  simp only [getChatResponse]
  rw [if_neg hne, if_pos hm]
  simp only [applyPlanUpdate]
  split
  · rename_i heq
    rw [hp] at heq
    exact Option.noConfusion heq
  · rename_i u2 heq
    rw [hp] at heq
    injection heq with he
    subst he
    simp only [ht]
    rw [if_pos hv]

/-- Witness for C5: a concrete revision replacing the single old task;
the old task is gone, the update tasks are installed wholesale, and
the unrelated id field of the plan is untouched. -/
theorem getChatResponse_full_replacement_witness :
    getChatResponse
        (CallOutcome.success (some "PLAN_UPDATE:\n\x7b\"tasks\":[\x7b\"taskId\":\"T1\",\"lcat\":\"Eng\",\"hours\":10\x7d]\x7d\nSwapped hours."))
        [("id", JsonVal.str "p1"),
          ("finalStaffingPlan", JsonVal.obj [("tasks", JsonVal.arr [JsonVal.obj [("taskId", JsonVal.str "OLD")]])])] =
      Except.ok
        { message :=
            if (extractPlanUpdate "PLAN_UPDATE:\n\x7b\"tasks\":[\x7b\"taskId\":\"T1\",\"lcat\":\"Eng\",\"hours\":10\x7d]\x7d\nSwapped hours.").2 = ""
            then "Plan updated successfully"
            else (extractPlanUpdate "PLAN_UPDATE:\n\x7b\"tasks\":[\x7b\"taskId\":\"T1\",\"lcat\":\"Eng\",\"hours\":10\x7d]\x7d\nSwapped hours.").2
          updatedPlan :=
            some (objSet
              [("id", JsonVal.str "p1"),
                ("finalStaffingPlan", JsonVal.obj [("tasks", JsonVal.arr [JsonVal.obj [("taskId", JsonVal.str "OLD")]])])]
              "finalStaffingPlan"
              (JsonVal.obj [("tasks",
                JsonVal.arr [JsonVal.obj [("taskId", JsonVal.str "T1"), ("lcat", JsonVal.str "Eng"),
                  ("hours", JsonVal.num 10)]])]))
          error := none } ∧
    lookupField
        (objSet
          [("id", JsonVal.str "p1"),
            ("finalStaffingPlan", JsonVal.obj [("tasks", JsonVal.arr [JsonVal.obj [("taskId", JsonVal.str "OLD")]])])]
          "finalStaffingPlan"
          (JsonVal.obj [("tasks",
            JsonVal.arr [JsonVal.obj [("taskId", JsonVal.str "T1"), ("lcat", JsonVal.str "Eng"),
              ("hours", JsonVal.num 10)]])]))
        "id" =
      lookupField
        [("id", JsonVal.str "p1"),
          ("finalStaffingPlan", JsonVal.obj [("tasks", JsonVal.arr [JsonVal.obj [("taskId", JsonVal.str "OLD")]])])]
        "id" :=
  ⟨(getChatResponse_full_replacement
      "PLAN_UPDATE:\n\x7b\"tasks\":[\x7b\"taskId\":\"T1\",\"lcat\":\"Eng\",\"hours\":10\x7d]\x7d\nSwapped hours."
      [("id", JsonVal.str "p1"),
        ("finalStaffingPlan", JsonVal.obj [("tasks", JsonVal.arr [JsonVal.obj [("taskId", JsonVal.str "OLD")]])])]
      (JsonVal.obj [("tasks",
        JsonVal.arr [JsonVal.obj [("taskId", JsonVal.str "T1"), ("lcat", JsonVal.str "Eng"),
          ("hours", JsonVal.num 10)]])])
      [JsonVal.obj [("taskId", JsonVal.str "T1"), ("lcat", JsonVal.str "Eng"), ("hours", JsonVal.num 10)]]
      (by decide) rfl rfl rfl).1,
    (getChatResponse_full_replacement
      "PLAN_UPDATE:\n\x7b\"tasks\":[\x7b\"taskId\":\"T1\",\"lcat\":\"Eng\",\"hours\":10\x7d]\x7d\nSwapped hours."
      [("id", JsonVal.str "p1"),
        ("finalStaffingPlan", JsonVal.obj [("tasks", JsonVal.arr [JsonVal.obj [("taskId", JsonVal.str "OLD")]])])]
      (JsonVal.obj [("tasks",
        JsonVal.arr [JsonVal.obj [("taskId", JsonVal.str "T1"), ("lcat", JsonVal.str "Eng"),
          ("hours", JsonVal.num 10)]])])
      [JsonVal.obj [("taskId", JsonVal.str "T1"), ("lcat", JsonVal.str "Eng"), ("hours", JsonVal.num 10)]]
      (by decide) rfl rfl rfl).2.2 "id" (by decide)⟩

/-- C6: a reply without the marker token is returned in full as the
conversational message, with no updatedPlan and no error marker. -/
theorem getChatResponse_no_marker (content : String) (planData : List (String × JsonVal))
    (hne : content ≠ "")
    (hm : containsSub planUpdateMarker.data content.data = false) :
    getChatResponse (CallOutcome.success (some content)) planData =
      Except.ok { message := content, updatedPlan := none, error := none } := by
  simp only [getChatResponse]
  rw [if_neg hne, if_neg (by simp [hm])]

/-- Witness for C6: the read-only question from the spec scenario. -/
theorem getChatResponse_no_marker_witness :
    getChatResponse (CallOutcome.success (some "What labor categories were used?")) [] =
      Except.ok { message := "What labor categories were used?", updatedPlan := none, error := none } :=
  getChatResponse_no_marker "What labor categories were used?" [] (by decide) rfl

/-- C7: a context-length failure of the model call is converted into
the recoverable shorten-your-request message with an error marker and
no throw; any other call failure is rethrown to the caller as the
unrecoverable wrapped error. -/
theorem getChatResponse_transport (planData : List (String × JsonVal)) (code : Option String)
    (msg : String) :
    getChatResponse (CallOutcome.failure (some "context_length_exceeded") msg) planData =
      Except.ok { message := tooLongMsg, updatedPlan := none, error := some "Message too long" } ∧
    (code ≠ some "context_length_exceeded" →
      getChatResponse (CallOutcome.failure code msg) planData =
        Except.error ("Failed to get AI response: " ++ msg)) := by
  constructor
  · simp only [getChatResponse]
    simp
  · intro hc
    simp only [getChatResponse]
    rw [if_neg hc]

/-- Witness for C7: a context-length failure is softened, an uncoded
failure is rethrown. -/
theorem getChatResponse_transport_witness :
    getChatResponse (CallOutcome.failure (some "context_length_exceeded") "boom") [] =
      Except.ok { message := tooLongMsg, updatedPlan := none, error := some "Message too long" } ∧
    getChatResponse (CallOutcome.failure none "boom") [] =
      Except.error "Failed to get AI response: boom" :=
  ⟨(getChatResponse_transport [] none "boom").1,
    (getChatResponse_transport [] none "boom").2 (by decide)⟩

/-- C8 (amended): every task line of an update that getChatResponse
accepts (whenever the response carries an updatedPlan) passed the
source validation: truthy taskId, truthy lcat, and hours of number
type; the code checks nothing else, so neither non-negativity of
hours nor presence of mathRationale is guaranteed. -/
theorem updatedPlan_only_validated_tasks (outcome : CallOutcome)
    (planData : List (String × JsonVal)) (r : ChatResponse) (plan : List (String × JsonVal))
    (hr : getChatResponse outcome planData = Except.ok r)
    (hp : r.updatedPlan = some plan) :
    ∃ ts : List JsonVal,
      lookupField plan "finalStaffingPlan" = some (JsonVal.obj [("tasks", JsonVal.arr ts)]) ∧
      ts.all validTask = true := by
  cases outcome with
  | failure code msg =>
    simp only [getChatResponse] at hr
    by_cases hc : code = some "context_length_exceeded"
    · rw [if_pos hc] at hr
      injection hr with h2
      subst h2
      exact Option.noConfusion (show (none : Option (List (String × JsonVal))) = some plan from hp)
    · rw [if_neg hc] at hr
      exact Except.noConfusion hr
  | success contentOpt =>
    cases contentOpt with
    | none =>
      simp only [getChatResponse] at hr
      injection hr with h2
      subst h2
      exact Option.noConfusion (show (none : Option (List (String × JsonVal))) = some plan from hp)
    | some content =>
      simp only [getChatResponse] at hr
      by_cases hc : content = ""
      · rw [if_pos hc] at hr
        injection hr with h2
        subst h2
        exact Option.noConfusion (show (none : Option (List (String × JsonVal))) = some plan from hp)
      · rw [if_neg hc] at hr
        by_cases hmk : containsSub planUpdateMarker.data content.data = true
        · rw [if_pos hmk] at hr
          injection hr with h2
          subst h2
          simp only [applyPlanUpdate] at hp
          split at hp
          · exact Option.noConfusion
              (show (none : Option (List (String × JsonVal))) = some plan from hp)
          · rename_i u heq
            split at hp
            · rename_i ts heq2
              split at hp
              · rename_i hv
                have h3 : some (objSet planData "finalStaffingPlan"
                    (JsonVal.obj [("tasks", JsonVal.arr ts)])) = some plan := hp
                injection h3 with h4
                rw [← h4]
                exact ⟨ts, lookupField_objSet_self planData "finalStaffingPlan" _, hv⟩
              · exact Option.noConfusion
                  (show (none : Option (List (String × JsonVal))) = some plan from hp)
            · exact Option.noConfusion
                (show (none : Option (List (String × JsonVal))) = some plan from hp)
        · rw [if_neg hmk] at hr
          injection hr with h2
          subst h2
          exact Option.noConfusion (show (none : Option (List (String × JsonVal))) = some plan from hp)

/-- Witness for C8: a concrete accepted update whose single line has
truthy taskId and lcat and numeric hours. -/
theorem updatedPlan_only_validated_tasks_witness :
    ∃ ts : List JsonVal,
      lookupField
          [("finalStaffingPlan", JsonVal.obj [("tasks",
            JsonVal.arr [JsonVal.obj [("taskId", JsonVal.str "T1"), ("lcat", JsonVal.str "Eng"),
              ("hours", JsonVal.num 10)]])])]
          "finalStaffingPlan" = some (JsonVal.obj [("tasks", JsonVal.arr ts)]) ∧
      ts.all validTask = true :=
  updatedPlan_only_validated_tasks
    (CallOutcome.success (some "PLAN_UPDATE:\n\x7b\"tasks\":[\x7b\"taskId\":\"T1\",\"lcat\":\"Eng\",\"hours\":10\x7d]\x7d\nSwapped hours."))
    []
    { message := "Swapped hours."
      updatedPlan := some [("finalStaffingPlan", JsonVal.obj [("tasks",
        JsonVal.arr [JsonVal.obj [("taskId", JsonVal.str "T1"), ("lcat", JsonVal.str "Eng"),
          ("hours", JsonVal.num 10)]])])]
      error := none }
    [("finalStaffingPlan", JsonVal.obj [("tasks",
      JsonVal.arr [JsonVal.obj [("taskId", JsonVal.str "T1"), ("lcat", JsonVal.str "Eng"),
        ("hours", JsonVal.num 10)]])])]
    rfl rfl

/-- C8 counterexample: an update line with hours equal to minus five
and no mathRationale at all is accepted and installed in updatedPlan,
refuting both the non-negativity and the required-mathRationale parts
of the claim. -/
theorem negative_hours_accepted_counterexample :
    getChatResponse
        (CallOutcome.success (some "PLAN_UPDATE:\n\x7b\"tasks\":[\x7b\"taskId\":\"T1\",\"lcat\":\"Engineer\",\"hours\":-5\x7d]\x7d\nDone"))
        [] =
      Except.ok
        { message := "Done"
          updatedPlan := some [("finalStaffingPlan", JsonVal.obj [("tasks",
            JsonVal.arr [JsonVal.obj [("taskId", JsonVal.str "T1"),
              ("lcat", JsonVal.str "Engineer"), ("hours", JsonVal.num (-5))]])])]
          error := none } ∧
    getProp (JsonVal.obj [("taskId", JsonVal.str "T1"), ("lcat", JsonVal.str "Engineer"),
        ("hours", JsonVal.num (-5))]) "hours" = some (JsonVal.num (-5)) ∧
    ((-5 : Rat) < 0) ∧
    getProp (JsonVal.obj [("taskId", JsonVal.str "T1"), ("lcat", JsonVal.str "Engineer"),
        ("hours", JsonVal.num (-5))]) "mathRationale" = none :=
  ⟨rfl, rfl, by norm_num, rfl⟩

/-- C9: a missing or empty completion content yields the fixed apology
with no updatedPlan and no error marker, without throwing. -/
theorem getChatResponse_empty_content (planData : List (String × JsonVal))
    (contentOpt : Option String)
    (h : contentOpt = none ∨ contentOpt = some "") :
    getChatResponse (CallOutcome.success contentOpt) planData =
      Except.ok { message := apologyMsg, updatedPlan := none, error := none } := by
  rcases h with h | h
  · subst h
    rfl
  · subst h
    simp only [getChatResponse]
    simp

/-- Witness for C9: the missing-content case. -/
theorem getChatResponse_empty_content_witness :
    getChatResponse (CallOutcome.success none) [] =
      Except.ok { message := apologyMsg, updatedPlan := none, error := none } :=
  getChatResponse_empty_content [] none (Or.inl rfl)

/-- C10: every message in the list built for the completion call has
content that is not whitespace-only (blank history entries and a blank
user message are silently dropped by the filter), and every entry is
the system message, the user message, or one of the five most recent
history turns. -/
theorem buildMessages_window_nonblank (sys msg : String) (history : List ChatMsg) (m : ChatMsg)
    (hm : m ∈ buildMessages sys history msg) :
    jsTrimString m.content ≠ "" ∧
    (m = ChatMsg.mk Role.system sys ∨ m = ChatMsg.mk Role.user msg ∨
      m ∈ history.drop (history.length - 5)) := by
  unfold buildMessages at hm
  rw [List.mem_filter] at hm
  obtain ⟨hmem, hcond⟩ := hm
  constructor
  · simpa using hcond
  · rw [List.mem_append] at hmem
    rcases hmem with hmem | hmem
    · rw [List.mem_cons] at hmem
      rcases hmem with hmem | hmem
      · exact Or.inl hmem
      · rw [List.mem_map] at hmem
        obtain ⟨x, hx, hxe⟩ := hmem
        right; right
        have he : ChatMsg.mk x.role x.content = x := rfl
        rw [he] at hxe
        exact hxe ▸ hx
    · rw [List.mem_singleton] at hmem
      exact Or.inr (Or.inl hmem)

/-- Witness for C10: a one-turn history; the user message is kept and
is non-blank. -/
theorem buildMessages_window_nonblank_witness :
    jsTrimString (ChatMsg.mk Role.user "hi").content ≠ "" ∧
    (ChatMsg.mk Role.user "hi" = ChatMsg.mk Role.system "sys" ∨
      ChatMsg.mk Role.user "hi" = ChatMsg.mk Role.user "hi" ∨
      ChatMsg.mk Role.user "hi" ∈
        ([ChatMsg.mk Role.assistant "  "] : List ChatMsg).drop
          (([ChatMsg.mk Role.assistant "  "] : List ChatMsg).length - 5)) :=
  buildMessages_window_nonblank "sys" "hi" [ChatMsg.mk Role.assistant "  "]
    (ChatMsg.mk Role.user "hi") (by decide)
